import Mathlib

/-!
Verification of the OctoJS middleware engine (`packages/app/src/composer.ts`,
`packages/app/src/context.ts`) against its natural-language specification.

The TypeScript source is shallowly embedded as follows:

* JavaScript runtime values that can be thrown are modelled by `JSVal`,
  carrying exactly the data the source consults (`typeof` kind, `instanceof
  Error` with `name`/`message`, and a string representation used by template
  interpolation).
* Asynchronous middleware execution is single-threaded and cooperative (spec
  section 5), so `await`-sequencing is modelled by sequential composition in a
  monad `M` over an explicit state `St`.  `St` holds a heap of boolean cells —
  one is allocated per activation of a `concat` pair or of an error boundary,
  modelling the closure-captured `nextCalled` flags of the source — plus an
  observation trace that test middlewares (user code) append to, used to state
  which middleware ran and in which order.  A thrown JavaScript value is an
  `Except.error` carrying a `JSVal`; state changes performed before a throw
  persist, as they do in JavaScript.
* `MiddlewareFn` is `Context → M Unit → M Unit`: the source's
  `(ctx, next) => MaybePromise<unknown>` (the returned value is always
  discarded by `await`, hence `Unit`).
* The `Composer` class mutates `this.handler` in place; the embedding is
  purely functional, so every mutating method returns the updated composer
  together with the child composer the source returns.  `flatten` of a
  composer-as-`MiddlewareObj` snapshots the handler at attachment time; no
  claim mutates a child composer after it is attached, so this agrees with
  the source's deferred `mw.middleware()` lookup on every dispatch considered
  here.
-/

namespace OctoJS

/-- A JavaScript runtime value as far as the error-normalization code
observes it: `jsError name message` is a value with `instanceof Error`
(carrying `error.name` and `error.message`); the other constructors carry
the string representation that template interpolation (`` `${error}` ``)
produces for them.  `nullVal` has `typeof` `"object"`, `funcVal` has
`typeof` `"function"`. -/
inductive JSVal where
  | jsError (name : String) (message : String)
  | str (s : String)
  | num (rep : String)
  | bigintVal (rep : String)
  | boolVal (b : Bool)
  | symbolVal (rep : String)
  | undef
  | nullVal
  | objVal (tag : String)
  | funcVal (tag : String)
deriving DecidableEq

/-- The JavaScript `typeof` operator on the modelled values. -/
def typeofVal : JSVal → String
  | .jsError _ _ => "object"
  | .str _ => "string"
  | .num _ => "number"
  | .bigintVal _ => "bigint"
  | .boolVal _ => "boolean"
  | .symbolVal _ => "symbol"
  | .undef => "undefined"
  | .nullVal => "object"
  | .objVal _ => "object"
  | .funcVal _ => "function"

/-- Explicit string coercion `String(v)` (used by the source's string
branch, `String(error).substring(0, 50)`): the carried representation.
Unlike template interpolation, `String` does not throw for symbols; on the
non-symbol primitive kinds the two conversions coincide. -/
def jsToString : JSVal → String
  | .jsError name message => name ++ ": " ++ message
  | .str s => s
  | .num rep => rep
  | .bigintVal rep => rep
  | .boolVal b => if b then "true" else "false"
  | .symbolVal rep => rep
  | .undef => "undefined"
  | .nullVal => "null"
  | .objVal tag => tag
  | .funcVal tag => tag

/-- The `TypeError` JavaScript raises when ToString is applied to a symbol
(as template-literal substitution does). -/
def symbolToStringError : JSVal :=
  JSVal.jsError "TypeError" "Cannot convert a Symbol value to a string"

/-- Template-literal interpolation `` `${v}` `` (the source's
`` msg += `: ${error}` ``): applies ToString, which THROWS a `TypeError` for
symbols and otherwise yields the `String(v)` representation. -/
def jsTemplateString : JSVal → Except JSVal String
  | .symbolVal _ => Except.error symbolToStringError
  | v => Except.ok (jsToString v)

/-- Source `generateBotErrorMessage` (composer.ts lines 43-66): an
`instanceof Error` value formats as `"<name> in middleware: <message>"`;
otherwise the message names the `typeof` kind, inlines the interpolated
representation for `bigint`/`boolean`/`number`/`symbol` (`` `: ${error}` ``
— which for a symbol THROWS a `TypeError` instead of producing a message),
truncates a thrown string to its first 50 characters (`substring(0, 50)`),
and appends a bare `"!"` for every other kind.  The result is `Except`
because of the symbol case: message generation itself can throw. -/
def generateBotErrorMessage (error : JSVal) : Except JSVal String :=
  match error with
  | .jsError name message => Except.ok (name ++ " in middleware: " ++ message)
  | _ =>
    let type := typeofVal error
    let msg := "Non-error value of type " ++ type ++ " thrown in middleware"
    match type with
    | "bigint" | "boolean" | "number" | "symbol" =>
      match jsTemplateString error with
      | Except.ok rep => Except.ok (msg ++ ": " ++ rep)
      | Except.error e => Except.error e
    | "string" => Except.ok (msg ++ ": " ++ String.mk ((jsToString error).data.take 50))
    | _ => Except.ok (msg ++ "!")

/-- The webhook payload, modelled by the only field the engine consults:
its optional `action` property (`none` = the payload object has no `action`
key). -/
structure Payload where
  action : Option String
deriving DecidableEq

/-- Source `Context` (context.ts): immutable holder of the event name and
payload. -/
structure Context where
  eventName : String
  event : Payload
deriving DecidableEq

/-- Dispatch state: `cells` is a heap of boolean flags (one allocated per
closure-captured `nextCalled` variable), `trace` is the observation log test
middlewares append to. -/
structure St where
  cells : List Bool
  trace : List String
deriving DecidableEq

/-- The dispatch effect monad: state plus JavaScript exceptions.  State
changes performed before a throw persist. -/
def M (α : Type) : Type := St → Except JSVal α × St

def M.pure {α : Type} (a : α) : M α := fun s => (Except.ok a, s)

def M.bind {α β : Type} (x : M α) (f : α → M β) : M β := fun s =>
  match x s with
  | (Except.ok a, s1) => f a s1
  | (Except.error e, s1) => (Except.error e, s1)

instance : Monad M where
  pure := M.pure
  bind := M.bind

/-- JavaScript `throw err`. -/
def M.throwJS {α : Type} (e : JSVal) : M α := fun s => (Except.error e, s)

/-- JavaScript `try x catch h`: run `x`; hand any thrown value to `h`. -/
def M.tryCatch {α : Type} (x : M α) (h : JSVal → M α) : M α := fun s =>
  match x s with
  | (Except.ok a, s1) => (Except.ok a, s1)
  | (Except.error e, s1) => h e s1

/-- Allocate a fresh boolean cell (a closure-local `let` flag), returning
its index. -/
def M.alloc (b : Bool) : M Nat := fun s =>
  (Except.ok s.cells.length, ⟨s.cells ++ [b], s.trace⟩)

/-- Read cell `i`. -/
def M.read (i : Nat) : M Bool := fun s => (Except.ok (s.cells.getD i false), s)

/-- Write cell `i`. -/
def M.write (i : Nat) (b : Bool) : M Unit := fun s =>
  (Except.ok (), ⟨s.cells.set i b, s.trace⟩)

/-- Append an entry to the observation trace (user middleware logging). -/
def M.log (m : String) : M Unit := fun s =>
  (Except.ok (), ⟨s.cells, s.trace ++ [m]⟩)

/-- Source `NextFunction`: `() => Promise<void>`, i.e. a computation. -/
def NextFunction : Type := M Unit

/-- Source `MiddlewareFn`: `(ctx, next) => MaybePromise<unknown>`; the
returned value is always discarded by `await`. -/
def MiddlewareFn : Type := Context → NextFunction → M Unit

/-- Source `MiddlewareObj`: anything exposing a `middleware()` method that
produces a `MiddlewareFn` on demand. -/
structure MiddlewareObj where
  middleware : Unit → MiddlewareFn

/-- Source `Middleware`: a plain function or a `MiddlewareObj`. -/
inductive Middleware where
  | fn (f : MiddlewareFn)
  | obj (o : MiddlewareObj)

/-- Source `flatten` (composer.ts lines 68-72). -/
def flatten : Middleware → MiddlewareFn
  | .fn f => f
  | .obj o => fun ctx next => o.middleware () ctx next

/-- The value thrown by `concat`'s wrapped continuation on a second
invocation: the source's `new Error('`next` already called before!')`.  The
spec calls this failure a `DoubleContinuationError`; the source realises it
as a plain `Error` with this message. -/
def DoubleContinuationError : JSVal :=
  JSVal.jsError "Error" "`next` already called before!"

/-- The continuation `concat` hands to its first argument (the closure
`async () => {...}` of composer.ts lines 79-83), with `i` the cell holding
the activation's `nextCalled` flag. -/
def concatNext (andThen : MiddlewareFn) (ctx : Context) (next : NextFunction)
    (i : Nat) : M Unit := do
  let nextCalled ← M.read i
  if nextCalled then M.throwJS DoubleContinuationError
  else
    M.write i true
    andThen ctx next

/-- Source `concat` (composer.ts lines 73-85): run `first` with a
continuation that throws on a second invocation and otherwise runs
`andThen`. -/
def concat (first andThen : MiddlewareFn) : MiddlewareFn := fun ctx next => do
  let i ← M.alloc false
  first ctx (concatNext andThen ctx next i)

/-- Source `pass` (composer.ts lines 86-88): the identity middleware. -/
def pass : MiddlewareFn := fun _ctx next => next

/-- Source `leaf` (composer.ts line 90): the terminal no-op continuation. -/
def leaf : NextFunction := M.pure ()

/-- Source `run` (composer.ts lines 97-102). -/
def run (middleware : MiddlewareFn) (ctx : Context) : M Unit :=
  middleware ctx leaf

/-- Source `MaybeArray<T>`. -/
inductive MaybeArray (α : Type) where
  | single (a : α)
  | array (l : List α)

/-- `Array.isArray` normalization: a single value becomes a one-element
array. -/
def MaybeArray.toList {α : Type} : MaybeArray α → List α
  | .single a => [a]
  | .array l => l

/-- Source `BotError` (composer.ts lines 36-42): the structured dispatch
error, carrying the thrown value (`error`), the active context (`ctx`), the
Error name `"BotError"`, and the derived message. -/
structure BotError where
  error : JSVal
  ctx : Context
  name : String
  message : String
deriving DecidableEq

/-- Constructor `new BotError(error, ctx)`: the `super` call evaluates
`generateBotErrorMessage(error)`, so constructing a `BotError` around a
thrown symbol itself throws the ToString `TypeError` instead of producing an
error object. -/
def BotError.make (error : JSVal) (ctx : Context) : Except JSVal BotError :=
  match generateBotErrorMessage error with
  | Except.ok msg => Except.ok ⟨error, ctx, "BotError", msg⟩
  | Except.error e => Except.error e

/-- The characters of `q.split('.')[0]`: everything before the first dot. -/
def takeUntilDot : List Char → List Char
  | [] => []
  | c :: cs => if c = '.' then [] else c :: takeUntilDot cs

/-- The characters after the first dot, or `none` if the string contains no
dot (so that `q.split('.')[1]` is `undefined`). -/
def afterDot : List Char → Option (List Char)
  | [] => none
  | c :: cs => if c = '.' then some cs else afterDot cs

/-- The body of the arrow function inside `Composer.on` (composer.ts lines
129-144) for one query `q`: destructure `const [event, action] =
q.split('.')`; no match if the event differs from `c.eventName`; match if no
action qualifier was given; otherwise match iff the payload has an `action`
field equal to the qualifier (`'action' in c.event && action ===
c.event.action`). -/
def queryMatches (q : String) (c : Context) : Bool :=
  let event : String := String.mk (takeUntilDot q.data)
  let action : Option String := (afterDot q.data).map (fun cs => String.mk (takeUntilDot cs))
  if event != c.eventName then false
  else
    match action with
    | none => true
    | some a =>
      match c.event.action with
      | some v => a == v
      | none => false

/-- A value stored in a `route` handler record: either actual middleware
(functions and objects are always truthy in JavaScript) or a falsy entry
(`null`, `undefined`, `0`, `""`, `false`), which `!routeHandlers[route]`
treats like an absent key. -/
inductive MwVal where
  | mw (m : Middleware)
  | falsy

/-- Source `Composer` (composer.ts lines 104-233).  The class mutates its
private `handler` field in place; here every mutating method returns the
updated composer alongside the child composer the source returns. -/
structure Composer where
  handler : MiddlewareFn

/-- Constructor `new Composer(...middleware)` (composer.ts lines 107-111):
zero arguments yield the pass-through identity, otherwise the flattened
middlewares are folded pairwise with `concat` (`reduce`). -/
def Composer.make (middleware : List Middleware) : Composer :=
  ⟨match middleware.map flatten with
   | [] => pass
   | f :: fs => fs.foldl concat f⟩

/-- The `middleware()` method (composer.ts lines 113-115). -/
def Composer.middleware (c : Composer) : Unit → MiddlewareFn :=
  fun _ => c.handler

/-- The composer viewed as a `MiddlewareObj`
(`Composer implements MiddlewareObj`). -/
def Composer.toObj (c : Composer) : MiddlewareObj :=
  ⟨c.middleware⟩

/-- Source `Composer.use` (composer.ts lines 117-121): build a child
composer from the arguments, concatenate it onto the current handler, and
return the child.  Result: (mutated parent, returned child). -/
def Composer.use (c : Composer) (middleware : List Middleware) :
    Composer × Composer :=
  let composer := Composer.make middleware
  (⟨concat c.handler (flatten (.obj composer.toObj))⟩, composer)

/-- Source `Composer.lazy` (composer.ts lines 175-183): register a
middleware that, on every dispatch, invokes the factory, normalizes its
result to an array, and runs a fresh anonymous composer built from it. -/
def Composer.lazy (c : Composer)
    (middlewareFactory : Context → M (MaybeArray Middleware)) :
    Composer × Composer :=
  c.use [.fn (fun ctx next => do
    let middleware ← middlewareFactory ctx
    let arr := middleware.toList
    flatten (.obj (Composer.make arr).toObj) ctx next)]

/-- Source `Composer.branch` (composer.ts lines 197-205): a lazy factory
that evaluates the predicate once and yields the selected middleware set. -/
def Composer.branch (c : Composer) (predicate : Context → M Bool)
    (trueMiddleware falseMiddleware : MaybeArray Middleware) :
    Composer × Composer :=
  c.lazy (fun ctx => do
    let b ← predicate ctx
    M.pure (if b then trueMiddleware else falseMiddleware))

/-- Source `Composer.filter` (composer.ts lines 148-163): branch between a
child composer holding the given middleware and `pass`; returns the child. -/
def Composer.filter (c : Composer) (predicate : Context → M Bool)
    (middleware : List Middleware) : Composer × Composer :=
  let composer := Composer.make middleware
  let c1 := (c.branch predicate (.single (.obj composer.toObj))
    (.single (.fn pass))).fst
  (c1, composer)

/-- Source `Composer.drop` (composer.ts lines 165-173): `filter` with the
predicate negated (`async (ctx) => !(await predicate(ctx))`). -/
def Composer.drop (c : Composer) (predicate : Context → M Bool)
    (middleware : List Middleware) : Composer × Composer :=
  c.filter (fun ctx => do
    let b ← predicate ctx
    M.pure (!b)) middleware

/-- Source `Composer.on` (composer.ts lines 123-146): `filter` with the
query-matching predicate, a single query being normalized to a one-element
array and the queries OR'd by `Array.prototype.some`.  (The `Query<K>`
template-literal validation is compile-time only and has no runtime
counterpart.) -/
def Composer.on (c : Composer) (filter : MaybeArray String)
    (middleware : List Middleware) : Composer × Composer :=
  c.filter (fun ctx => M.pure
    (filter.toList.any (fun q => queryMatches q ctx))) middleware

/-- Source `Composer.route` (composer.ts lines 184-195): a lazy factory that
queries the router and yields the handler registered under the returned key,
or the fallback when the key is `undefined`, unmapped, or mapped to a falsy
entry (`route === undefined || !routeHandlers[route] ? fallback :
routeHandlers[route]`).  The source's trailing `?? []` is unreachable: the
selected handler is truthy by the guard and `fallback` defaults to `pass`,
which callers here always supply explicitly. -/
def Composer.route (c : Composer) (router : Context → M (Option String))
    (routeHandlers : String → Option MwVal) (fallback : Middleware) :
    Composer × Composer :=
  c.lazy (fun ctx => do
    let route ← router ctx
    M.pure (MaybeArray.single
      (match route with
       | none => fallback
       | some k =>
         match routeHandlers k with
         | some (.mw m) => m
         | some .falsy => fallback
         | none => fallback)))

/-- The continuation `errorBoundary` hands both to the guarded middleware
and to the error handler (`const cont = () => ((nextCalled = true),
Promise.resolve())`, composer.ts line 218), with `i` the cell holding the
boundary's `nextCalled` flag. -/
def boundaryCont (i : Nat) : M Unit := M.write i true

/-- The middleware function `errorBoundary` registers via `use`
(composer.ts lines 216-226): run the guarded handler `bound` with a local
flag; on a throw, reset the flag, wrap the thrown value and the active
context in a `BotError` (`new BotError(err, ctx)` — whose construction can
itself throw, in which case that throw happens inside the catch clause,
before the error handler is called, and propagates out of the boundary
middleware), and invoke the error handler with it and the flag-setting
continuation; finally invoke the outer continuation iff the flag is set. -/
def boundaryMw (errorHandler : BotError → NextFunction → M Unit)
    (bound : MiddlewareFn) : MiddlewareFn := fun ctx next => do
  let i ← M.alloc false
  M.tryCatch (bound ctx (boundaryCont i))
    (fun err => do
      M.write i false
      match BotError.make err ctx with
      | Except.ok be => errorHandler be (boundaryCont i)
      | Except.error e2 => M.throwJS e2)
  let nextCalled ← M.read i
  if nextCalled then next else M.pure ()

/-- Source `Composer.errorBoundary` (composer.ts lines 207-228): build the
guarded composer, snapshot it as `bound`, and register the boundary
middleware; returns (mutated parent, guarded composer). -/
def Composer.errorBoundary (c : Composer)
    (errorHandler : BotError → NextFunction → M Unit)
    (middleware : List Middleware) : Composer × Composer :=
  let composer := Composer.make middleware
  let bound := flatten (.obj composer.toObj)
  ((c.use [.fn (boundaryMw errorHandler bound)]).fst, composer)

/-- Source `Composer.handle` (composer.ts lines 230-232). -/
def Composer.handle (c : Composer) (ctx : Context) : M Unit :=
  run (c.middleware ()) ctx

/-! ### Test harness: concrete user middlewares, contexts, and chains -/

/-- A user middleware that logs `name` to the trace and then invokes its
continuation iff `callNext` (modelling "the middleware decided to continue
/ to short-circuit"). -/
def mwLog (name : String) (callNext : Bool) : MiddlewareFn :=
  fun _ctx next => do
    M.log name
    if callNext then next else M.pure ()

/-- The initial dispatch state: no cells, empty trace. -/
def st0 : St := ⟨[], []⟩

/-- A concrete context for closed test dispatches. -/
def ctx0 : Context := ⟨"push", ⟨none⟩⟩

/-- Chain for the `use` ordering claim: three middlewares `A`, `B`, `C`
registered via `use` on one composer; each invokes its continuation
according to its flag. -/
def useChain (a b c : Bool) : Composer :=
  let c0 := Composer.make []
  let c1 := (c0.use [.fn (mwLog "A" a)]).fst
  let c2 := (c1.use [.fn (mwLog "B" b)]).fst
  (c2.use [.fn (mwLog "C" c)]).fst

/-- Generic conditional chain: a `filter` child (pure predicate `p`,
middleware logging `n`) followed by a `use` middleware logging `"T"`. -/
def filterUse (p : Context → Bool) (n : String) : Composer :=
  let c0 := Composer.make []
  let c1 := (c0.filter (fun ctx => M.pure (p ctx)) [.fn (mwLog n true)]).fst
  (c1.use [.fn (mwLog "T" true)]).fst

/-- Chain with a single-query `on` child (logging `"H"`) followed by a `use`
middleware logging `"T"`. -/
def onChainS (q : String) : Composer :=
  let c0 := Composer.make []
  let c1 := (c0.on (.single q) [.fn (mwLog "H" true)]).fst
  (c1.use [.fn (mwLog "T" true)]).fst

/-- Chain with a query-array `on` child (logging `"H"`) followed by a `use`
middleware logging `"T"`. -/
def onChainA (qs : List String) : Composer :=
  let c0 := Composer.make []
  let c1 := (c0.on (.array qs) [.fn (mwLog "H" true)]).fst
  (c1.use [.fn (mwLog "T" true)]).fst

/-- Chain with a `filter p` child (logging `"F"`) and a `drop p` child
(logging `"D"`) on the same composer, followed by a `use` middleware logging
`"T"`. -/
def filterDropChain (p : Context → Bool) : Composer :=
  let c0 := Composer.make []
  let c1 := (c0.filter (fun ctx => M.pure (p ctx)) [.fn (mwLog "F" true)]).fst
  let c2 := (c1.drop (fun ctx => M.pure (p ctx)) [.fn (mwLog "D" true)]).fst
  (c2.use [.fn (mwLog "T" true)]).fst

/-- Chain with a `branch` whose predicate logs `"P"` before returning `b`,
whose true set is the ordered sequence `T1; T2` and whose false set is the
single unit `F1`, followed by a `use` middleware logging `"T"`. -/
def branchChain (b : Bool) : Composer :=
  let c0 := Composer.make []
  let c1 := (c0.branch
    (fun _ctx => do
      M.log "P"
      M.pure b)
    (.array [.fn (mwLog "T1" true), .fn (mwLog "T2" true)])
    (.single (.fn (mwLog "F1" true)))).fst
  (c1.use [.fn (mwLog "T" true)]).fst

/-- Route handler record for the `route` claim: key `"a"` maps to middleware
logging `"A"`, key `"b"` to middleware logging `"B"`, key `"c"` to a
falsy-but-defined entry, and every other key is absent. -/
def testHandlers : String → Option MwVal := fun k =>
  if k = "a" then some (.mw (.fn (mwLog "A" true)))
  else if k = "b" then some (.mw (.fn (mwLog "B" true)))
  else if k = "c" then some .falsy
  else none

/-- Chain with a `route` over `testHandlers` whose router returns the fixed
key `r` and whose fallback logs `"Fb"`, followed by a `use` middleware
logging `"T"`. -/
def routeChain (r : Option String) : Composer :=
  let c0 := Composer.make []
  let c1 := (c0.route (fun _ctx => M.pure r) testHandlers
    (.fn (mwLog "Fb" true))).fst
  (c1.use [.fn (mwLog "T" true)]).fst

/-- Like `routeChain` but with the fallback the source defaults to:
`pass`. -/
def routeChainD (r : Option String) : Composer :=
  let c0 := Composer.make []
  let c1 := (c0.route (fun _ctx => M.pure r) testHandlers (.fn pass)).fst
  (c1.use [.fn (mwLog "T" true)]).fst

/-- A middleware that throws the value `v`. -/
def throwMw (v : JSVal) : MiddlewareFn := fun _ctx _next => M.throwJS v

/-- A middleware that invokes its continuation twice in one activation. -/
def doubleNextMw : MiddlewareFn := fun _ctx next => do
  next
  next

/-- An error handler that logs `"EH:"` followed by the received error's
message and then invokes its continuation iff `callNext`. -/
def ehLog (callNext : Bool) : BotError → NextFunction → M Unit :=
  fun e k => do
    M.log ("EH:" ++ e.message)
    if callNext then k else M.pure ()

/-- An error handler that re-throws the received `BotError` (`throw err`
on an `instanceof Error` value named `"BotError"`). -/
def ehRethrow : BotError → NextFunction → M Unit :=
  fun e _k => M.throwJS (JSVal.jsError e.name e.message)

/-- Chain with an `errorBoundary` (handler `ehLog b`) guarding the sequence
`doubleNextMw; M2`, followed by a `use` middleware logging `"T"`: the guarded
subtree triggers a double continuation invocation after `M2` completed. -/
def doubleNextBoundaryChain (b : Bool) : Composer :=
  let c0 := Composer.make []
  let c1 := (c0.errorBoundary (ehLog b)
    [.fn doubleNextMw, .fn (mwLog "M2" true)]).fst
  (c1.use [.fn (mwLog "T" true)]).fst

/-- An error boundary whose guarded middleware throws the string `"boom"`
and whose handler re-throws the received `BotError`, packaged as a composer
(hence usable as a `MiddlewareObj`). -/
def innerBoundary : Composer :=
  ((Composer.make []).errorBoundary ehRethrow
    [.fn (throwMw (JSVal.str "boom"))]).fst

/-- Chain nesting `innerBoundary` inside an outer `errorBoundary` whose
handler logs the received message and does not resume. -/
def nestedChain : Composer :=
  ((Composer.make []).errorBoundary (ehLog false) [.obj innerBoundary.toObj]).fst

/-- Chain registering `innerBoundary` with no enclosing boundary: its
handler's re-throw escapes `handle`. -/
def unguardedChain : Composer :=
  ((Composer.make []).use [.obj innerBoundary.toObj]).fst

/-- Chain with an `errorBoundary` whose guarded middleware throws a symbol,
followed by a `use` middleware logging `"T"`: the catch clause's `BotError`
construction throws the ToString `TypeError` before the handler runs. -/
def symbolBoundaryChain : Composer :=
  let c0 := Composer.make []
  let c1 := (c0.errorBoundary (ehLog true)
    [.fn (throwMw (JSVal.symbolVal "Symbol(sym)"))]).fst
  (c1.use [.fn (mwLog "T" true)]).fst

/-- A composer whose only middleware is `doubleNextMw`: that middleware's
activation receives the terminal continuation `leaf` from `run`/`handle`. -/
def doubleLeafChain : Composer := Composer.make [.fn doubleNextMw]

/-- An `errorBoundary` directly guarding `doubleNextMw` (a one-element
guarded composer, so no `concat` wraps it): the guarded activation receives
the boundary's flag-setting `cont` as its continuation.  Followed by a `use`
middleware logging `"T"`. -/
def doubleContChain : Composer :=
  let c0 := Composer.make []
  let c1 := (c0.errorBoundary (ehLog true) [.fn doubleNextMw]).fst
  (c1.use [.fn (mwLog "T" true)]).fst

/-! ### Evaluation lemmas for the dispatch monad -/

@[simp] theorem M.pure_apply {α : Type} (a : α) (s : St) :
    (M.pure a) s = (Except.ok a, s) := rfl

@[simp] theorem M.bind_apply {α β : Type} (x : M α) (f : α → M β) (s : St) :
    (M.bind x f) s =
      match x s with
      | (Except.ok a, s1) => f a s1
      | (Except.error e, s1) => (Except.error e, s1) := rfl

@[simp] theorem M.monad_bind {α β : Type} (x : M α) (f : α → M β) :
    (x >>= f) = M.bind x f := rfl

@[simp] theorem M.monad_pure {α : Type} (a : α) :
    (Pure.pure a : M α) = M.pure a := rfl

@[simp] theorem M.throwJS_apply {α : Type} (e : JSVal) (s : St) :
    (M.throwJS e : M α) s = (Except.error e, s) := rfl

@[simp] theorem M.tryCatch_apply {α : Type} (x : M α) (h : JSVal → M α) (s : St) :
    (M.tryCatch x h) s =
      match x s with
      | (Except.ok a, s1) => (Except.ok a, s1)
      | (Except.error e, s1) => h e s1 := rfl

@[simp] theorem M.alloc_apply (b : Bool) (s : St) :
    (M.alloc b) s = (Except.ok s.cells.length, ⟨s.cells ++ [b], s.trace⟩) := rfl

@[simp] theorem M.read_apply (i : Nat) (s : St) :
    (M.read i) s = (Except.ok (s.cells.getD i false), s) := rfl

@[simp] theorem M.write_apply (i : Nat) (b : Bool) (s : St) :
    (M.write i b) s = (Except.ok (), ⟨s.cells.set i b, s.trace⟩) := rfl

@[simp] theorem M.log_apply (m : String) (s : St) :
    (M.log m) s = (Except.ok (), ⟨s.cells, s.trace ++ [m]⟩) := rfl

/-! ### Engine lemmas -/

/-- Dispatching the generic `filterUse` chain: the conditional middleware
logs `n` iff the predicate holds of the context, the trailing middleware
always runs afterwards, and dispatch completes without error. -/
theorem handle_filterUse (p : Context → Bool) (n : String) (ctx : Context) :
    (filterUse p n).handle ctx st0 =
      (Except.ok (), ⟨[true, true], if p ctx then [n, "T"] else ["T"]⟩) := by
  cases hp : p ctx <;>
    simp [filterUse, Composer.handle, Composer.make, Composer.use, Composer.filter,
      Composer.branch, Composer.lazy, Composer.toObj, Composer.middleware, flatten,
      concat, concatNext, pass, run, leaf, mwLog, MaybeArray.toList, st0, hp]

/-- The single query `"push"` matches exactly the contexts whose event name
is `"push"`. -/
theorem queryMatches_push (ctx : Context) :
    queryMatches "push" ctx = (ctx.eventName == "push") := by
  by_cases h : ctx.eventName = "push"
  · simp [queryMatches, takeUntilDot, afterDot, h]
  · have h2 : ¬("push" = ctx.eventName) := fun e => h e.symm
    simp [queryMatches, takeUntilDot, afterDot, h, h2]

/-- The action-qualified query `"issues.opened"` matches exactly the
contexts whose event name is `"issues"` and whose payload carries
`action == "opened"`. -/
theorem queryMatches_issues_opened (ctx : Context) :
    queryMatches "issues.opened" ctx =
      (ctx.eventName == "issues" && ctx.event.action == some "opened") := by
  by_cases h : ctx.eventName = "issues"
  · cases ha : ctx.event.action with
    | none => simp [queryMatches, takeUntilDot, afterDot, h, ha]
    | some v =>
      by_cases hv : v = "opened"
      · simp [queryMatches, takeUntilDot, afterDot, h, ha, hv]
      · have hv2 : ¬("opened" = v) := fun e => hv e.symm
        simp [queryMatches, takeUntilDot, afterDot, h, ha, hv, hv2]
  · have h2 : ¬("issues" = ctx.eventName) := fun e => h e.symm
    cases ha : ctx.event.action <;>
      simp [queryMatches, takeUntilDot, afterDot, h, h2, ha]

/-- An action-qualified query (one containing a dot) never matches a context
whose payload has no `action` field. -/
theorem queryMatches_no_action (q : String) (ctx : Context)
    (hq : (afterDot q.data).isSome = true) (ha : ctx.event.action = none) :
    queryMatches q ctx = false := by
  rcases hopt : afterDot q.data with _ | cs
  · rw [hopt] at hq
    simp at hq
  · simp [queryMatches, hopt, ha]

/-- Dispatching the single-query `on` chain reduces to `queryMatches`. -/
theorem handle_onChainS (q : String) (ctx : Context) :
    (onChainS q).handle ctx st0 =
      (Except.ok (), ⟨[true, true], if queryMatches q ctx then ["H", "T"] else ["T"]⟩) := by
  have h2 : (onChainS q).handle ctx st0 =
      (Except.ok (), ⟨[true, true],
        if (MaybeArray.single q).toList.any (fun q2 => queryMatches q2 ctx)
        then ["H", "T"] else ["T"]⟩) :=
    handle_filterUse
      (fun c => (MaybeArray.single q).toList.any (fun q2 => queryMatches q2 c)) "H" ctx
  rw [h2]
  simp [MaybeArray.toList]

/-- Dispatching the query-array `on` chain reduces to an OR over
`queryMatches`. -/
theorem handle_onChainA (qs : List String) (ctx : Context) :
    (onChainA qs).handle ctx st0 =
      (Except.ok (), ⟨[true, true],
        if qs.any (fun q => queryMatches q ctx) then ["H", "T"] else ["T"]⟩) := by
  have h2 : (onChainA qs).handle ctx st0 =
      (Except.ok (), ⟨[true, true],
        if (MaybeArray.array qs).toList.any (fun q2 => queryMatches q2 ctx)
        then ["H", "T"] else ["T"]⟩) :=
    handle_filterUse
      (fun c => (MaybeArray.array qs).toList.any (fun q2 => queryMatches q2 c)) "H" ctx
  rw [h2]
  simp [MaybeArray.toList]

/-! ### Claim theorems -/

/-- Counterexample to claim C3 as stated ("for every composer and every
middleware activation, a second invocation of `next` raises a
`DoubleContinuationError`"): two activations whose continuation is not
`concat`-created are silently double-invocable.  A composer whose only
middleware invokes `next` twice — that activation's continuation is the
terminal `leaf` supplied by `handle` — completes without any error; and an
`errorBoundary` directly guarding the same middleware — that activation's
continuation is the boundary's flag-setting `cont` — likewise raises
nothing: the double invocation is absorbed, the flag is simply set twice,
and the chain resumes normally (the error handler never runs). -/
theorem double_next_unguarded_continuations_cex :
    doubleLeafChain.handle ctx0 st0 = (Except.ok (), st0) ∧
    (doubleContChain.handle ctx0 st0).fst = Except.ok () ∧
    (doubleContChain.handle ctx0 st0).snd.trace = ["T"] :=
  ⟨rfl, rfl, rfl⟩

/-- Claim C3 as amended: the at-most-once continuation discipline is the
discipline of `concat`-created continuations — the `next` of every
middleware unit that has a successor in a concatenated chain.  `concat`
allocates a fresh `nextCalled` flag, initially false, and hands the first
unit the continuation `concatNext` over that flag (first conjunct).
Invoking that continuation while the flag is unset succeeds: it sets the
flag and proceeds into the second unit (second conjunct, "the first
invocation succeeds").  Invoking it again in the same activation — the flag
now set — raises the `DoubleContinuationError` (the source's
`new Error('`next` already called before!')`) instead of running anything
(third conjunct).  The two other continuations the engine hands out are
unguarded: the terminal `leaf` of `run`/`handle` and an `errorBoundary`'s
flag-setting `cont` are silently idempotent under a second invocation
(fourth and fifth conjuncts), so those activations can double-invoke without
any error being raised. -/
theorem concat_continuation_discipline_amended (g : MiddlewareFn) (ctx : Context)
    (next : NextFunction) (i : Nat) (s : St) :
    (∀ f : MiddlewareFn, concat f g ctx next s
      = f ctx (concatNext g ctx next s.cells.length) ⟨s.cells ++ [false], s.trace⟩) ∧
    (s.cells.getD i false = false →
      concatNext g ctx next i s = g ctx next ⟨s.cells.set i true, s.trace⟩) ∧
    (s.cells.getD i false = true →
      concatNext g ctx next i s = (Except.error DoubleContinuationError, s)) ∧
    (M.bind leaf (fun _ => leaf)) s = (Except.ok (), s) ∧
    (M.bind (boundaryCont i) (fun _ => boundaryCont i)) s
      = (Except.ok (), ⟨(s.cells.set i true).set i true, s.trace⟩) := by
  refine ⟨fun f => rfl, fun h => ?_, fun h => ?_, rfl, rfl⟩
  · simp only [concatNext, M.monad_bind, M.bind_apply, M.read_apply, h]
    simp
  · simp only [concatNext, M.monad_bind, M.bind_apply, M.read_apply, h]
    simp

/-- Witness for the amended C3 at concrete inputs: with a fresh unset flag
the `concat`-created continuation proceeds into the second unit and
completes; with the flag already set (the state the first invocation leaves
behind) it raises `DoubleContinuationError`. -/
theorem concat_continuation_discipline_amended_witness :
    concatNext pass ctx0 leaf 0 ⟨[false], []⟩ = (Except.ok (), ⟨[true], []⟩) ∧
    concatNext pass ctx0 leaf 0 ⟨[true], []⟩
      = (Except.error DoubleContinuationError, ⟨[true], []⟩) :=
  ⟨((concat_continuation_discipline_amended pass ctx0 leaf 0 ⟨[false], []⟩).2.1 rfl).trans rfl,
   (concat_continuation_discipline_amended pass ctx0 leaf 0 ⟨[true], []⟩).2.2.1 rfl⟩

/-- Claim C9: three middlewares `A`, `B`, `C` registered via `use` on one
composer run in registration order; a later middleware starts only if every
earlier one invoked its continuation (the trace is `A`, then `B` iff `A`
continued, then `C` iff `A` and `B` both continued), and dispatch completes
without error in every case — in particular when `A` continues and `B` does
not, `C` never runs and `handle` completes normally. -/
theorem use_registration_order (a b c : Bool) (ctx : Context) :
    ((useChain a b c).handle ctx st0).fst = Except.ok () ∧
    ((useChain a b c).handle ctx st0).snd.trace =
      "A" :: (if a then "B" :: (if b then ["C"] else []) else []) := by
  cases a <;> cases b <;> cases c <;> exact ⟨rfl, rfl⟩

/-- Claim C6: dispatching through `branch(p, T, F)` evaluates the predicate
exactly once (`"P"` occurs exactly once in the trace), then runs exactly the
selected middleware set — the sequence `T1; T2` when the predicate is true,
the single unit `F1` when it is false — never both and never neither, and
then continues to the rest of the chain (`"T"`).  The final cell list shows
that the un-selected set contributes nothing to the continuation-count
bookkeeping: the true branch allocates a third `nextCalled` cell (for the
`concat` of `T1` and `T2`), the false branch allocates none. -/
theorem branch_selects_exactly_one (b : Bool) (ctx : Context) :
    (branchChain b).handle ctx st0 =
      (Except.ok (), ⟨if b then [true, true, true] else [true, true],
        "P" :: (if b then ["T1", "T2", "T"] else ["F1", "T"])⟩) := by
  cases b <;> rfl

/-- Counterexample to claim C2 as stated: an `errorBoundary` whose guarded
subtree (`doubleNextMw` then `M2`) triggers a double invocation of `next`.
The double-invocation failure does NOT propagate past the boundary —
`handle` completes without error — and it IS normalized and handed to the
error handler: the handler runs and receives a `BotError` whose message is
the normalized `"Error in middleware: `next` already called before!"`. -/
theorem double_next_caught_by_boundary_cex :
    ((doubleNextBoundaryChain false).handle ctx0 st0).fst = Except.ok () ∧
    ((doubleNextBoundaryChain false).handle ctx0 st0).snd.trace =
      ["M2", "EH:Error in middleware: `next` already called before!"] :=
  ⟨rfl, rfl⟩

/-- Claim C2 as amended: the double-continuation programmer error is thrown
as an ordinary `Error`; when it arises inside an `errorBoundary`'s guarded
subtree it is caught by the boundary like any other thrown value, wrapped in
a `BotError`, and handed to the error handler — it does not propagate past
the boundary.  Whatever the handler decides (`b` = whether it invokes its
continuation, resuming the chain at `"T"` or absorbing the event), `handle`
completes without error. -/
theorem double_next_normalized_amended (b : Bool) :
    ((doubleNextBoundaryChain b).handle ctx0 st0).fst = Except.ok () ∧
    ((doubleNextBoundaryChain b).handle ctx0 st0).snd.trace =
      ["M2", "EH:Error in middleware: `next` already called before!"]
        ++ (if b then ["T"] else []) := by
  cases b <;> exact ⟨rfl, rfl⟩

/-- Counterexample to claim C8 as stated (all four primitive kinds
boolean/number/bigint/symbol inlined): for a thrown symbol the inlining
template `` `: ${error}` `` applies ToString to the symbol, which throws a
`TypeError` — message generation produces no message at all, and the
`BotError` constructor wrapping a thrown symbol throws instead of
constructing. -/
theorem symbol_message_throws_cex :
    generateBotErrorMessage (JSVal.symbolVal "Symbol(sym)")
      = Except.error symbolToStringError ∧
    BotError.make (JSVal.symbolVal "Symbol(sym)") ctx0
      = Except.error symbolToStringError :=
  ⟨rfl, rfl⟩

/-- Claim C8 as amended: error normalization produces exactly the specified
messages for every thrown value except symbols.  Wrapping the thrown Error
`new TypeError("bad")` yields the message `"TypeError in middleware: bad"`
(in particular it starts with it); wrapping the thrown string `"nonerror"`
yields a message containing (indeed equal to) `"Non-error value of type
string thrown in middleware: nonerror"`; an arbitrary thrown string is
truncated to its first 50 characters; the primitive kinds
boolean/number/bigint are inlined via their string representation; a thrown
symbol, however, is not inlined — the template interpolation in its branch
throws `TypeError: Cannot convert a Symbol value to a string`, so no message
is produced; and every other non-Error value (plain objects, `undefined`,
`null`, functions) gets the generic `"!"` marker instead of a
representation. -/
theorem error_message_normalization_amended (s rep tag : String) (b : Bool) :
    BotError.make (JSVal.jsError "TypeError" "bad") ctx0
      = Except.ok ⟨JSVal.jsError "TypeError" "bad", ctx0, "BotError",
          "TypeError in middleware: bad"⟩ ∧
    List.isPrefixOf ("TypeError in middleware: bad").data
      (((generateBotErrorMessage (JSVal.jsError "TypeError" "bad")).toOption.getD
        "").data) = true ∧
    BotError.make (JSVal.str "nonerror") ctx0
      = Except.ok ⟨JSVal.str "nonerror", ctx0, "BotError",
          "Non-error value of type string thrown in middleware: nonerror"⟩ ∧
    ("Non-error value of type string thrown in middleware: nonerror").data
      <:+: (((generateBotErrorMessage (JSVal.str "nonerror")).toOption.getD
        "").data) ∧
    generateBotErrorMessage (JSVal.str s)
      = Except.ok ("Non-error value of type string thrown in middleware: "
        ++ String.mk (s.data.take 50)) ∧
    generateBotErrorMessage (JSVal.boolVal b)
      = Except.ok ("Non-error value of type boolean thrown in middleware: "
        ++ (if b then "true" else "false")) ∧
    generateBotErrorMessage (JSVal.num rep)
      = Except.ok ("Non-error value of type number thrown in middleware: " ++ rep) ∧
    generateBotErrorMessage (JSVal.bigintVal rep)
      = Except.ok ("Non-error value of type bigint thrown in middleware: " ++ rep) ∧
    generateBotErrorMessage (JSVal.symbolVal rep) = Except.error symbolToStringError ∧
    generateBotErrorMessage (JSVal.objVal tag)
      = Except.ok "Non-error value of type object thrown in middleware!" ∧
    generateBotErrorMessage JSVal.undef
      = Except.ok "Non-error value of type undefined thrown in middleware!" ∧
    generateBotErrorMessage JSVal.nullVal
      = Except.ok "Non-error value of type object thrown in middleware!" ∧
    generateBotErrorMessage (JSVal.funcVal tag)
      = Except.ok "Non-error value of type function thrown in middleware!" := by
  refine ⟨rfl, by decide, rfl, by decide, rfl, ?_, rfl, rfl, rfl, rfl, rfl, rfl, rfl⟩
  cases b <;> rfl

/-- Counterexample to claim C1 as stated ("ANY value thrown while running
the guarded middleware subtree does not propagate past the boundary; it is
wrapped into a BotError ... and passed to errorHandler"): when the guarded
middleware throws a symbol, the `new BotError(err, ctx)` in the boundary's
catch clause itself throws the ToString `TypeError` while generating the
message, so the error handler never runs (the trace is empty — the
handler's `"EH:..."` log and the trailing `"T"` are both absent) and a
failure propagates past the boundary and out of `handle`. -/
theorem errorBoundary_symbol_escapes_cex :
    (symbolBoundaryChain.handle ctx0 st0).fst = Except.error symbolToStringError ∧
    (symbolBoundaryChain.handle ctx0 st0).snd.trace = [] :=
  ⟨rfl, rfl⟩

/-- Claim C1 as amended: the error-boundary contract, split on whether the
`BotError` construction for the thrown value succeeds.  First conjunct: if
the guarded subtree `bound`, run with the boundary's flag-setting
continuation, throws a value `v` whose message normalization succeeds
(every value except symbols), the boundary middleware's result is entirely
determined by the error handler: the thrown `v` never propagates past the
boundary; the handler is invoked with the structured `BotError` carrying the
thrown value and the active context, and with the boundary's continuation;
if the handler completes normally the outer continuation `next` runs iff
the boundary flag was set — i.e. iff the handler invoked the continuation
it was given (the flag was reset to false before the handler started and
the continuation is the only engine operation that sets it); and if the
handler itself throws `w`, then `w` (not `v`) propagates past the boundary.
Second conjunct: if message normalization of `v` throws (the symbol case),
that `TypeError` propagates past the boundary and the handler never runs.
Remaining conjuncts (closed instances): with nested boundaries, an inner
handler's re-throw is caught by the next enclosing boundary, whose handler
receives it re-wrapped; with no enclosing boundary, the re-thrown value
escapes `handle` to the caller. -/
theorem errorBoundary_wraps_and_resumes_amended
    (eh : BotError → NextFunction → M Unit)
    (bound : MiddlewareFn) (ctx : Context) (next : NextFunction) (s : St)
    (v : JSVal) (s2 : St)
    (hthrow : bound ctx (boundaryCont s.cells.length) ⟨s.cells ++ [false], s.trace⟩
      = (Except.error v, s2)) :
    (∀ m, generateBotErrorMessage v = Except.ok m →
      boundaryMw eh bound ctx next s =
        match eh ⟨v, ctx, "BotError", m⟩ (boundaryCont s.cells.length)
            ⟨s2.cells.set s.cells.length false, s2.trace⟩ with
        | (Except.ok _, s3) =>
          if s3.cells.getD s.cells.length false then next s3 else (Except.ok (), s3)
        | (Except.error w, s3) => (Except.error w, s3)) ∧
    (∀ e2, generateBotErrorMessage v = Except.error e2 →
      boundaryMw eh bound ctx next s
        = (Except.error e2, ⟨s2.cells.set s.cells.length false, s2.trace⟩)) ∧
    (nestedChain.handle ctx0 st0).fst = Except.ok () ∧
    (nestedChain.handle ctx0 st0).snd.trace
      = ["EH:BotError in middleware: Non-error value of type string thrown in middleware: boom"] ∧
    (unguardedChain.handle ctx0 st0).fst = Except.error (JSVal.jsError "BotError"
      "Non-error value of type string thrown in middleware: boom") := by
  refine ⟨fun m hm => ?_, fun e2 he2 => ?_, rfl, rfl, rfl⟩
  · simp only [boundaryMw, M.monad_bind, M.monad_pure, M.bind_apply, M.alloc_apply,
      M.tryCatch_apply, M.write_apply, M.read_apply, M.pure_apply, hthrow,
      BotError.make, hm]
    rcases h3 : eh ⟨v, ctx, "BotError", m⟩ (boundaryCont s.cells.length)
        ⟨s2.cells.set s.cells.length false, s2.trace⟩ with ⟨r, s3⟩
    cases r with
    | ok => cases hb : s3.cells.getD s.cells.length false <;> simp only [hb] <;> simp
    | error => rfl
  · simp only [boundaryMw, M.monad_bind, M.monad_pure, M.bind_apply, M.alloc_apply,
      M.tryCatch_apply, M.write_apply, M.read_apply, M.pure_apply, M.throwJS_apply,
      hthrow, BotError.make, he2]

/-- Witness for the amended C1 at concrete inputs.  First conjunct: guarded
middleware throwing the string `"boom"`, handler logging the received
message and invoking its continuation — the boundary hands the handler the
normalized `BotError` and, the continuation having been invoked, resumes
the outer chain.  Second conjunct: guarded middleware throwing a symbol —
the ToString `TypeError` escapes the boundary, the handler never logs. -/
theorem errorBoundary_wraps_and_resumes_amended_witness :
    (boundaryMw (ehLog true) (throwMw (JSVal.str "boom")) ctx0 leaf st0
      = (Except.ok (), ⟨[true],
          ["EH:Non-error value of type string thrown in middleware: boom"]⟩)) ∧
    (boundaryMw (ehLog true) (throwMw (JSVal.symbolVal "Symbol(sym)")) ctx0 leaf st0
      = (Except.error symbolToStringError, ⟨[false], []⟩)) := by
  have h1 := errorBoundary_wraps_and_resumes_amended (ehLog true)
    (throwMw (JSVal.str "boom")) ctx0 leaf st0 (JSVal.str "boom") ⟨[false], []⟩ rfl
  have h2 := errorBoundary_wraps_and_resumes_amended (ehLog true)
    (throwMw (JSVal.symbolVal "Symbol(sym)")) ctx0 leaf st0
    (JSVal.symbolVal "Symbol(sym)") ⟨[false], []⟩ rfl
  exact ⟨(h1.1 _ rfl).trans (by rfl), h2.2.1 _ rfl⟩

/-- Claim C4: a child registered via `on("push")` runs iff the context's
event name is `"push"`; one registered via `on("issues.opened")` runs iff
the event name is `"issues"` and the payload's `action` is `"opened"`; with
a set of queries the child runs iff at least one query matches (queries are
OR'd); in every non-matching case the chain passes through unchanged (the
trailing middleware still runs and dispatch completes without error). -/
theorem on_matches_event_action (ctx : Context) (qs : List String) :
    ((onChainS "push").handle ctx st0).snd.trace
      = (if ctx.eventName = "push" then ["H", "T"] else ["T"]) ∧
    ((onChainS "issues.opened").handle ctx st0).snd.trace
      = (if ctx.eventName = "issues" ∧ ctx.event.action = some "opened"
         then ["H", "T"] else ["T"]) ∧
    ((onChainA qs).handle ctx st0).snd.trace
      = (if qs.any (fun q => queryMatches q ctx) then ["H", "T"] else ["T"]) ∧
    ((onChainA qs).handle ctx st0).fst = Except.ok () := by
  refine ⟨?_, ?_, ?_, ?_⟩
  · simp [handle_onChainS, queryMatches_push]
  · simp [handle_onChainS, queryMatches_issues_opened]
  · simp [handle_onChainA]
  · simp [handle_onChainA]

/-- Claim C5: dispatching through `route(r, handlers, fallback)` executes
exactly one branch: the handler registered under the router's key when that
key is defined and mapped to a (truthy) handler — `"A"` for key `"a"`, `"B"`
for key `"b"` — and otherwise the fallback, selected when the router returns
`undefined`, an unmapped key, or the key `"c"` whose entry is
falsy-but-defined.  With an explicit fallback the fallback middleware runs
(`"Fb"`); with the source's default fallback (`pass`) the chain simply
passes through.  Dispatch always completes without error. -/
theorem route_exactly_one (r : Option String) :
    ((routeChain r).handle ctx0 st0).fst = Except.ok () ∧
    ((routeChain r).handle ctx0 st0).snd.trace
      = (match r with
         | none => ["Fb", "T"]
         | some k => if k = "a" then ["A", "T"]
             else if k = "b" then ["B", "T"] else ["Fb", "T"]) ∧
    ((routeChainD r).handle ctx0 st0).snd.trace
      = (match r with
         | none => ["T"]
         | some k => if k = "a" then ["A", "T"]
             else if k = "b" then ["B", "T"] else ["T"]) := by
  rcases r with _ | k
  · exact ⟨rfl, rfl, rfl⟩
  · by_cases h1 : k = "a"
    · subst h1
      exact ⟨rfl, rfl, rfl⟩
    · by_cases h2 : k = "b"
      · subst h2
        exact ⟨rfl, rfl, rfl⟩
      · by_cases h3 : k = "c"
        · subst h3
          exact ⟨rfl, rfl, rfl⟩
        · refine ⟨?_, ?_, ?_⟩ <;>
            simp [routeChain, routeChainD, testHandlers, Composer.handle,
              Composer.make, Composer.use, Composer.route, Composer.lazy,
              Composer.toObj, Composer.middleware, flatten, concat, concatNext,
              pass, run, leaf, mwLog, MaybeArray.toList, st0, h1, h2, h3]

/-- Claim C7: `drop` is the logical negation of `filter`.  On a composer
carrying both a `filter p` child (logging `"F"`) and a `drop p` child
(logging `"D"`), the filter child runs iff `p ctx` is true and the drop
child runs iff `p ctx` is false; on no dispatch do both run (every possible
trace contains exactly one of `"F"`, `"D"`, third conjunct); and the chain
always continues past both children (`"T"`) without error. -/
theorem filter_drop_complementary (p : Context → Bool) (ctx : Context) :
    ((filterDropChain p).handle ctx st0).fst = Except.ok () ∧
    ((filterDropChain p).handle ctx st0).snd.trace
      = (if p ctx then ["F", "T"] else ["D", "T"]) ∧
    (((filterDropChain p).handle ctx st0).snd.trace = ["F", "T"]
      ∨ ((filterDropChain p).handle ctx st0).snd.trace = ["D", "T"]) := by
  have key : (filterDropChain p).handle ctx st0
      = (Except.ok (), ⟨[true, true, true],
          if p ctx then ["F", "T"] else ["D", "T"]⟩) := by
    cases hp : p ctx <;>
      simp [filterDropChain, Composer.handle, Composer.make, Composer.use,
        Composer.filter, Composer.drop, Composer.branch, Composer.lazy,
        Composer.toObj, Composer.middleware, flatten, concat, concatNext, pass,
        run, leaf, mwLog, MaybeArray.toList, st0, hp]
  rw [key]
  refine ⟨rfl, rfl, ?_⟩
  cases hp : p ctx
  · exact Or.inr rfl
  · exact Or.inl rfl

/-- Claim C10: dispatching a context whose payload has no `action` field
through a child registered with an action-qualified query (`hq`: the query
string contains a dot, so `q.split('.')[1]` is defined) never throws during
the match test — `handle` completes without error — because the membership
guard `'action' in c.event` makes the query evaluate to no-match; the
child's middleware is skipped and the rest of the chain (`"T"`) proceeds
normally. -/
theorem on_missing_action_skips (ctx : Context) (q : String)
    (hq : (afterDot q.data).isSome = true) (ha : ctx.event.action = none) :
    ((onChainS q).handle ctx st0).fst = Except.ok () ∧
    ((onChainS q).handle ctx st0).snd.trace = ["T"] := by
  rw [handle_onChainS, queryMatches_no_action q ctx hq ha]
  exact ⟨rfl, rfl⟩

/-- Witness for C10: the query `"issues.opened"` dispatched against a
context with matching event name but no `action` field in its payload. -/
theorem on_missing_action_skips_witness :
    ((onChainS "issues.opened").handle ⟨"issues", ⟨none⟩⟩ st0).fst = Except.ok () ∧
    ((onChainS "issues.opened").handle ⟨"issues", ⟨none⟩⟩ st0).snd.trace = ["T"] :=
  on_missing_action_skips ⟨"issues", ⟨none⟩⟩ "issues.opened" rfl rfl

end OctoJS

